import Mathlib

/-!
Shallow embedding of the streaming transcription/translation pipeline of
`translate.py` (classes TranscriptionWorker and TranslationWorker), together
with theorems checking the natural-language specification against it.

Conventions of the embedding:
* Python byte strings are `List Nat` (each entry one byte, reduced mod 256
  where the encoding reads it).
* Python strings are Lean `String`s; f-string interpolation becomes `++`.
* The cross-thread queues are the lists of values that were put on them,
  in order.
* Each loop of the source becomes a recursive function over the list of
  values the loop consumes; a shared boolean flag that another thread may
  set is passed as the function `stopped : Nat -> Bool` giving the value
  the loop observes at its i-th iteration.
* The remote chat-completion endpoint is an oracle
  `ChatRequest -> Except String String`: `Except.ok c` is a well-formed
  response whose message content is `c`, `Except.error e` is any raised
  exception rendered as the string `e` (network failure, rate limit,
  malformed response object).
-/

/-! ## Configuration (module level constants of translate.py) -/

/-- The TARGET_LANGUAGES dict of translate.py, as an ordered association
list (Python dicts preserve insertion order). -/
def TARGET_LANGUAGES : List (String × String) :=
  [("Spanish", "es"), ("Swahili", "sw"), ("Burmese", "my"), ("Pashto", "ps")]

/-- SAMPLE_RATE = 24000. -/
def SAMPLE_RATE : Nat := 24000

/-- CHANNELS = 1. -/
def CHANNELS : Nat := 1

/-- BLOCK_SIZE = int(SAMPLE_RATE * 0.1), 100ms of audio per block. -/
def BLOCK_SIZE : Nat := 2400

/-! ## base64 (Python base64.b64encode on a byte string, RFC 4648) -/

/-- The base64 alphabet. -/
def b64Alphabet : List Char :=
  "ABCDEFGHIJKLMNOPQRSTUVWXYZabcdefghijklmnopqrstuvwxyz0123456789+/".data

/-- The base64 character for a 6-bit group. -/
def b64Char (n : Nat) : Char := b64Alphabet.getD n 'A'

/-- base64-encode a byte list, three input bytes at a time, padding the
final group with `=` as base64.b64encode does. -/
def base64Chunks : List Nat → List Char
  | [] => []
  | [b1] =>
    let n := b1 % 256 * 65536
    [b64Char (n / 262144), b64Char (n / 4096 % 64), '=', '=']
  | [b1, b2] =>
    let n := b1 % 256 * 65536 + b2 % 256 * 256
    [b64Char (n / 262144), b64Char (n / 4096 % 64), b64Char (n / 64 % 64), '=']
  | b1 :: b2 :: b3 :: rest =>
    let n := b1 % 256 * 65536 + b2 % 256 * 256 + b3 % 256
    b64Char (n / 262144) :: b64Char (n / 4096 % 64) :: b64Char (n / 64 % 64)
      :: b64Char (n % 64) :: base64Chunks rest

/-- `base64.b64encode(bs).decode('utf-8')`. -/
def base64Encode (bs : List Nat) : String := String.mk (base64Chunks bs)

/-! ## TranscriptionWorker: outbound path (audio_callback and sender) -/

/-- The JSON envelope `{"type": "input_audio_buffer.append", "audio": ...}`
built by TranscriptionWorker.sender. The Python dict key "type" is the
field `kind`. -/
structure AudioEnvelope where
  kind : String
  audio : String
deriving DecidableEq

/-- One iteration of the body of TranscriptionWorker.sender: wrap one audio
block in an append envelope. -/
def appendEnvelope (audio_data : List Nat) : AudioEnvelope :=
  { kind := "input_audio_buffer.append", audio := base64Encode audio_data }

/-- TranscriptionWorker.audio_callback: put the raw bytes of the captured
block on the audio queue unconditionally (a nonzero status is printed but
does not suppress the put). -/
def audio_callback (q : List (List Nat)) (indata : List Nat) : List (List Nat) :=
  q ++ [indata]

/-- TranscriptionWorker.sender: while the stop event is not set, take the
next block from the audio queue, base64-encode it, wrap it and send it.
`stopped i` is the value of the stop event observed before consuming the
i-th block; the result is the list of envelopes sent, in order. -/
def sender (stopped : Nat → Bool) : Nat → List (List Nat) → List AudioEnvelope
  | _, [] => []
  | i, b :: rest =>
    if stopped i then [] else appendEnvelope b :: sender stopped (i + 1) rest

/-! ## TranscriptionWorker: inbound path (receiver) -/

/-- One parsed inbound websocket message, as TranscriptionWorker.receiver
distinguishes them:
* `completed t` is a message of type
  "conversation.item.input_audio_transcription.completed" whose
  "transcript" field (defaulting to the empty string) is `t`;
* `errorEvt m` is a message of type "error" with error message `m`;
* `otherEvt` is a message of any other type;
* `connClosed` is the transport raising ConnectionClosed while iterating;
* `malformed e` is any other exception raised while handling a message
  (for example json.loads failing), rendered as the string `e`. -/
inductive WsEvent where
  | completed (transcript : String)
  | errorEvt (message : String)
  | otherEvt
  | connClosed
  | malformed (e : String)
deriving DecidableEq

/-- What the receiver loop produced: the transcripts put on the transcript
queue and the statuses put on the status queue, each in order. -/
structure RecvOut where
  transcripts : List String
  statuses : List String
deriving DecidableEq

/-- TranscriptionWorker.receiver: for each inbound message, a completed
transcription whose transcript is truthy (non-empty) is put on the
transcript queue; an error event puts one error status and breaks the
loop; other event types are ignored; ConnectionClosed puts "Connection
Lost" and ends the loop; any other exception puts an error status and ends
the loop. -/
def receiver : List WsEvent → RecvOut
  | [] => { transcripts := [], statuses := [] }
  | WsEvent.completed t :: rest =>
    let r := receiver rest
    { r with transcripts := (if t = "" then [] else [t]) ++ r.transcripts }
  | WsEvent.errorEvt m :: _ => { transcripts := [], statuses := ["Error: " ++ m] }
  | WsEvent.otherEvt :: rest => receiver rest
  | WsEvent.connClosed :: _ => { transcripts := [], statuses := ["Connection Lost"] }
  | WsEvent.malformed e :: _ => { transcripts := [], statuses := ["Error: " ++ e] }

/-! ## TranscriptionWorker: session setup and worker lifecycle -/

/-- The transcription_session.update message sent right after the
connection is opened. The Python dict key "type" is the field `kind`. -/
structure TranscriptionSessionConfig where
  kind : String
  input_audio_format : String
  model : String
  language : String
  turn_detection : String
deriving DecidableEq

/-- The concrete session configuration message of run_transcription. -/
def sessionUpdateMsg : TranscriptionSessionConfig :=
  { kind := "transcription_session.update"
    input_audio_format := "pcm16"
    model := "gpt-4o-transcribe"
    language := "en"
    turn_detection := "server_vad" }

/-- A message sent on the websocket by run_transcription. -/
inductive OutMsg where
  | config (c : TranscriptionSessionConfig)
  | audio (e : AudioEnvelope)
deriving DecidableEq

/-- Whether an outbound message is a session configuration message. -/
def isConfig : OutMsg → Bool
  | OutMsg.config _ => true
  | OutMsg.audio _ => false

/-- The sequence of messages run_transcription sends on the websocket when
the connection succeeds: the session configuration message first, then the
envelopes produced by the sender loop for the captured blocks. -/
def run_transcription_outbound (stopped : Nat → Bool) (blocks : List (List Nat)) :
    List OutMsg :=
  OutMsg.config sessionUpdateMsg :: (sender stopped 0 blocks).map OutMsg.audio

/-- How one call of run_transcription ended:
* `connectFail e`: websockets.connect (or the handshake) raised `e`, so
  nothing after the connect ran;
* `session events`: the connection opened and the receiver consumed
  `events`, and the body exited through the normal stop path;
* `streamFail events e`: the connection opened, the receiver consumed
  `events`, and then an exception `e` escaped the with-block and was
  caught by the outer except. -/
inductive SessionOutcome where
  | connectFail (e : String)
  | session (events : List WsEvent)
  | streamFail (events : List WsEvent) (e : String)
deriving DecidableEq

/-- The statuses run_transcription puts on the status queue, in order:
"Connected. Listening..." once the connection is open, then whatever the
receiver put, then "Connection Failed: ..." if an exception was caught. -/
def run_transcription_statuses : SessionOutcome → List String
  | SessionOutcome.connectFail e => ["Connection Failed: " ++ e]
  | SessionOutcome.session events =>
    "Connected. Listening..." :: (receiver events).statuses
  | SessionOutcome.streamFail events e =>
    "Connected. Listening..." :: (receiver events).statuses
      ++ ["Connection Failed: " ++ e]

/-- TranscriptionWorker.run: run the transcription session, and in a
finally block put exactly one "Stopped" status. -/
def TranscriptionWorker.runStatuses (o : SessionOutcome) : List String :=
  run_transcription_statuses o ++ ["Stopped"]

/-! ## TranslationWorker: one translation request (translate) -/

/-- The arguments of client.chat.completions.create built by
TranslationWorker.translate. The single user message is the fields `role`
and `content`. -/
structure ChatRequest where
  model : String
  role : String
  content : String
  temperature : Rat
  max_tokens : Nat
deriving DecidableEq

/-- The translation prompt f-string of TranslationWorker.translate. -/
def translationPrompt (text lang_name : String) : String :=
  "You are an expert translator. Translate the following English text to "
    ++ lang_name
    ++ ". Provide ONLY the translation, with no additional text, quotes, or explanations.\n\n"
    ++ "English text: \"" ++ text ++ "\""

/-- The chat-completion request TranslationWorker.translate issues for a
source text and a target language name. -/
def buildRequest (text lang_name : String) : ChatRequest :=
  { model := "gpt-4o"
    role := "user"
    content := translationPrompt text lang_name
    temperature := (0.3 : Rat)
    max_tokens := text.length * 3 }

/-- Python str.strip(): remove leading and trailing whitespace. -/
def strip (s : String) : String :=
  String.mk (((s.data.dropWhile Char.isWhitespace).reverse.dropWhile
    Char.isWhitespace).reverse)

/-- TranslationWorker.translate: issue the request; on a well-formed
response put (language, stripped content) on the translation queue, on any
exception put (language, "[Error: ...]") instead. The result is the list
of pairs this call put on the translation queue. -/
def TranslationWorker.translate (oracle : ChatRequest → Except String String)
    (text lang_name : String) : List (String × String) :=
  match oracle (buildRequest text lang_name) with
  | Except.ok content => [(lang_name, strip content)]
  | Except.error e => [(lang_name, "[Error: " ++ e ++ "]")]

/-! ## TranslationWorker: the dispatcher loop (run) -/

/-- An action of the dispatcher loop, in the order it performs them:
`deq x` is transcript_queue.get() returning `x`; `pub r` is one
translation_queue.put(r); `joinAll` is the join over the per-language
threads of the current transcript. -/
inductive DAct where
  | deq (x : Option String)
  | pub (r : String × String)
  | joinAll
deriving DecidableEq

/-- Whether a dispatcher action is a publication to the result queue. -/
def isPub : DAct → Bool
  | DAct.pub _ => true
  | _ => false

/-- The labels of the results a dispatcher trace publishes, in order. -/
def pubLabels (l : List DAct) : List String :=
  l.filterMap fun a => match a with
    | DAct.pub r => some r.1
    | _ => none

/-- The publications of the per-language threads spawned for one
transcript, one thread per entry of the language map, each running
TranslationWorker.translate. -/
def fanOut (oracle : ChatRequest → Except String String) (text : String) :
    List (String × String) → List DAct
  | [] => []
  | p :: rest =>
    (TranslationWorker.translate oracle text p.1).map DAct.pub ++ fanOut oracle text rest

/-- The actions of one iteration of TranslationWorker.run for a real
transcript: publish the English line, then the per-language thread
publications, then join all threads. -/
def batchActs (oracle : ChatRequest → Except String String)
    (langs : List (String × String)) (t : String) : List DAct :=
  DAct.pub ("English", t) :: fanOut oracle t langs ++ [DAct.joinAll]

/-- TranslationWorker.run: while the stop event is not set, get the next
queue element; the None sentinel breaks the loop; a real transcript is
processed as one batch. `stopped i` is the stop-event value observed at
the top of the i-th iteration; the argument list is the queue contents the
loop consumes (an empty list means the loop is still blocked in get). -/
def runTrace (oracle : ChatRequest → Except String String)
    (langs : List (String × String)) (stopped : Nat → Bool) :
    Nat → List (Option String) → List DAct
  | _, [] => []
  | i, none :: _ => if stopped i then [] else [DAct.deq none]
  | i, some t :: rest =>
    if stopped i then []
    else DAct.deq (some t) ::
      (batchActs oracle langs t ++ runTrace oracle langs stopped (i + 1) rest)

/-- The TranslationWorker state touched by stop(): the stop event and the
transcript queue it shares with the transcription worker. -/
structure TranslationWorkerState where
  stopEvent : Bool
  transcriptQueue : List (Option String)
deriving DecidableEq

/-- TranslationWorker.stop: set the stop event and put the None sentinel
on the transcript queue. -/
def TranslationWorker.stop (s : TranslationWorkerState) : TranslationWorkerState :=
  { stopEvent := true, transcriptQueue := s.transcriptQueue ++ [none] }

/-! ## Interleaving of the sender and receiver loops of one session

The sender and receiver of TranscriptionWorker run as concurrent tasks
over the same connection; the GUI thread may set the stop event at any
time. The following small-step machine makes their interleaving explicit,
so that temporal statements (what may still happen after a fatal error
event) can be settled. Each step is one loop iteration of one task,
faithful to the loop bodies above. -/

/-- An observable action of the running session, in the order the actions
happened. -/
inductive SessionAction where
  | sentAudio (e : AudioEnvelope)
  | status (s : String)
  | enqTranscript (t : String)
deriving DecidableEq

/-- The shared state of one running transcription session. -/
structure SessionState where
  stopEvent : Bool
  audioQueue : List (List Nat)
  inbound : List WsEvent
  receiverDone : Bool
  trace : List SessionAction
deriving DecidableEq

/-- A scheduling choice: run one iteration of the sender, one iteration of
the receiver, or the GUI thread setting the stop event. -/
inductive Step where
  | senderStep
  | receiverStep
  | setStop
deriving DecidableEq

/-- One scheduled step. The sender checks only the stop event before
consuming the next block (it is not informed of receiver termination);
the receiver, once terminated by a terminal event, processes nothing
further. -/
def sessStep : Step → SessionState → SessionState
  | Step.senderStep, s =>
    if s.stopEvent then s
    else match s.audioQueue with
      | [] => s
      | b :: rest =>
        { s with audioQueue := rest
                 trace := s.trace ++ [SessionAction.sentAudio (appendEnvelope b)] }
  | Step.receiverStep, s =>
    if s.receiverDone then s
    else match s.inbound with
      | [] => s
      | WsEvent.completed t :: rest =>
        { s with inbound := rest
                 trace := s.trace ++
                   (if t = "" then [] else [SessionAction.enqTranscript t]) }
      | WsEvent.errorEvt m :: rest =>
        { s with inbound := rest
                 receiverDone := true
                 trace := s.trace ++ [SessionAction.status ("Error: " ++ m)] }
      | WsEvent.otherEvt :: rest => { s with inbound := rest }
      | WsEvent.connClosed :: rest =>
        { s with inbound := rest
                 receiverDone := true
                 trace := s.trace ++ [SessionAction.status "Connection Lost"] }
      | WsEvent.malformed e :: rest =>
        { s with inbound := rest
                 receiverDone := true
                 trace := s.trace ++ [SessionAction.status ("Error: " ++ e)] }
  | Step.setStop, s => { s with stopEvent := true }

/-- Run a schedule of steps from a state. -/
def runSession : List Step → SessionState → SessionState
  | [], s => s
  | stp :: rest, s => runSession rest (sessStep stp s)

/-- Whether a session action is a status publication. -/
def isStatusAct : SessionAction → Bool
  | SessionAction.status _ => true
  | _ => false

/-- Whether a session action is a transcript enqueue. -/
def isEnqAct : SessionAction → Bool
  | SessionAction.enqTranscript _ => true
  | _ => false

/-- The session actions strictly after the first status in a trace. -/
def afterFirstStatus : List SessionAction → List SessionAction
  | [] => []
  | SessionAction.status _ :: rest => rest
  | _ :: rest => afterFirstStatus rest

/-- How many audio envelopes a list of session actions sends. -/
def countSentAudio (l : List SessionAction) : Nat :=
  l.countP fun a => match a with
    | SessionAction.sentAudio _ => true
    | _ => false

/-- A session state in mid-stream: one captured audio block still queued,
and the next inbound message is a fatal protocol error event. -/
def midStreamErrorState : SessionState :=
  { stopEvent := false
    audioQueue := [[0, 1]]
    inbound := [WsEvent.errorEvt "boom"]
    receiverDone := false
    trace := [] }

/-! ## Helper lemmas -/

/-- String append acts as list append on the underlying character data. -/
lemma string_data_append (s t : String) : (s ++ t).data = s.data ++ t.data := by
  cases s; cases t; rfl

/-- Appending to a string with an explicit character list cannot give a
string whose data differs from that list at an index inside the list. -/
lemma mk_append_ne (l : List Char) (m c : String) (k : Nat) (hk : k < l.length)
    (h : c.data[k]? ≠ l[k]?) : String.mk l ++ m ≠ c := by
  intro he
  apply h
  have hd2 : l ++ m.data = c.data := by
    cases m
    exact congrArg String.data he
  rw [← hd2, List.getElem?_append, if_pos hk]

lemma error_append_ne_stopped (m : String) : "Error: " ++ m ≠ "Stopped" := by
  have h : ("Error: " : String) = String.mk ['E', 'r', 'r', 'o', 'r', ':', ' '] := rfl
  rw [h]
  exact mk_append_ne _ m "Stopped" 0 (by decide) (by decide)

lemma error_append_ne_connected (m : String) :
    "Error: " ++ m ≠ "Connected. Listening..." := by
  have h : ("Error: " : String) = String.mk ['E', 'r', 'r', 'o', 'r', ':', ' '] := rfl
  rw [h]
  exact mk_append_ne _ m "Connected. Listening..." 0 (by decide) (by decide)

lemma connFailed_append_ne_stopped (e : String) :
    "Connection Failed: " ++ e ≠ "Stopped" := by
  have h : ("Connection Failed: " : String) =
      String.mk ['C', 'o', 'n', 'n', 'e', 'c', 't', 'i', 'o', 'n', ' ',
        'F', 'a', 'i', 'l', 'e', 'd', ':', ' '] := rfl
  rw [h]
  exact mk_append_ne _ e "Stopped" 0 (by decide) (by decide)

lemma connFailed_append_ne_connected (e : String) :
    "Connection Failed: " ++ e ≠ "Connected. Listening..." := by
  have h : ("Connection Failed: " : String) =
      String.mk ['C', 'o', 'n', 'n', 'e', 'c', 't', 'i', 'o', 'n', ' ',
        'F', 'a', 'i', 'l', 'e', 'd', ':', ' '] := rfl
  rw [h]
  exact mk_append_ne _ e "Connected. Listening..." 7 (by decide) (by decide)

/-- Every status the receiver loop ever puts is either "Connection Lost"
or an error status. -/
lemma receiver_status_mem (events : List WsEvent) :
    ∀ s ∈ (receiver events).statuses,
      s = "Connection Lost" ∨ ∃ m, s = "Error: " ++ m := by
  induction events with
  | nil => intro s hs; simp [receiver] at hs
  | cons ev rest ih =>
    intro s hs
    cases ev with
    | completed t => exact ih s hs
    | errorEvt m =>
      simp [receiver] at hs
      exact Or.inr ⟨m, hs⟩
    | otherEvt => exact ih s hs
    | connClosed =>
      simp [receiver] at hs
      exact Or.inl hs
    | malformed e =>
      simp [receiver] at hs
      exact Or.inr ⟨e, hs⟩

lemma receiver_status_not_stopped (events : List WsEvent) :
    "Stopped" ∉ (receiver events).statuses := by
  intro hmem
  rcases receiver_status_mem events _ hmem with h | ⟨m, h⟩
  · exact absurd h (by decide)
  · exact error_append_ne_stopped m h.symm

lemma receiver_status_not_connected (events : List WsEvent) :
    "Connected. Listening..." ∉ (receiver events).statuses := by
  intro hmem
  rcases receiver_status_mem events _ hmem with h | ⟨m, h⟩
  · exact absurd h (by decide)
  · exact error_append_ne_connected m h.symm

/-- The statuses emitted before the finally block never include
"Stopped". -/
lemma run_transcription_not_stopped (o : SessionOutcome) :
    "Stopped" ∉ run_transcription_statuses o := by
  cases o with
  | connectFail e =>
    simp only [run_transcription_statuses, List.mem_singleton]
    exact fun h => connFailed_append_ne_stopped e h.symm
  | session events =>
    intro hmem
    rcases List.mem_cons.mp hmem with h | h
    · exact absurd h (by decide)
    · exact receiver_status_not_stopped events h
  | streamFail events e =>
    intro hmem
    rcases List.mem_cons.mp hmem with h | h
    · exact absurd h (by decide)
    · rcases List.mem_append.mp h with h2 | h2
      · exact receiver_status_not_stopped events h2
      · exact connFailed_append_ne_stopped e (List.mem_singleton.mp h2).symm

/-- TranscriptionWorker.run emits "Stopped" exactly once, whatever the
outcome of the session. -/
lemma count_stopped_runStatuses (o : SessionOutcome) :
    (TranscriptionWorker.runStatuses o).count "Stopped" = 1 := by
  unfold TranscriptionWorker.runStatuses
  rw [List.count_append]
  have h0 : (run_transcription_statuses o).count "Stopped" = 0 :=
    List.count_eq_zero.mpr (run_transcription_not_stopped o)
  rw [h0]
  rfl

/-- The session reports the connected status at most once per run: there
is no reconnect path. -/
lemma count_connected_le_one (o : SessionOutcome) :
    (run_transcription_statuses o).count "Connected. Listening..." ≤ 1 := by
  cases o with
  | connectFail e =>
    have h0 : (run_transcription_statuses (SessionOutcome.connectFail e)).count
        "Connected. Listening..." = 0 := by
      apply List.count_eq_zero.mpr
      simp only [run_transcription_statuses, List.mem_singleton]
      exact fun h => connFailed_append_ne_connected e h.symm
    omega
  | session events =>
    show (("Connected. Listening..." :: (receiver events).statuses).count
      "Connected. Listening...") ≤ 1
    rw [List.count_cons_self]
    have h0 : ((receiver events).statuses).count "Connected. Listening..." = 0 :=
      List.count_eq_zero.mpr (receiver_status_not_connected events)
    omega
  | streamFail events e =>
    show (("Connected. Listening..." :: ((receiver events).statuses
      ++ ["Connection Failed: " ++ e])).count "Connected. Listening...") ≤ 1
    rw [List.count_cons_self, List.count_append]
    have h0 : ((receiver events).statuses).count "Connected. Listening..." = 0 :=
      List.count_eq_zero.mpr (receiver_status_not_connected events)
    have h1 : (["Connection Failed: " ++ e]).count "Connected. Listening..." = 0 := by
      apply List.count_eq_zero.mpr
      simp only [List.mem_singleton]
      exact fun h => connFailed_append_ne_connected e h.symm
    omega

/-! ## Claim theorems -/

/-- Claim C2 (corrected): for a completed-transcription event at the head
of the remaining inbound stream, the receiver enqueues exactly one
transcript when the text is non-empty and none when it is the empty
string; no trimming is applied, so whitespace-only text counts as
non-empty and is enqueued. Statuses are untouched. -/
theorem receiver_completed_enqueue (t : String) (rest : List WsEvent) :
    (receiver (WsEvent.completed t :: rest)).transcripts =
      (if t = "" then [] else [t]) ++ (receiver rest).transcripts ∧
    (receiver (WsEvent.completed t :: rest)).statuses = (receiver rest).statuses ∧
    (t ≠ "" → (receiver (WsEvent.completed t :: rest)).transcripts.length =
      (receiver rest).transcripts.length + 1) := by
  refine ⟨rfl, rfl, fun h => ?_⟩
  simp [receiver, h]

/-- Witness for receiver_completed_enqueue at the whitespace-only text
" ": it is enqueued. -/
theorem receiver_completed_enqueue_witness :
    (" " : String) ≠ "" ∧
    (receiver [WsEvent.completed " "]).transcripts.length =
      (receiver []).transcripts.length + 1 :=
  ⟨by decide, (receiver_completed_enqueue " " []).2.2 (by decide)⟩

/-- Counterexample to claim C2 as stated: the transcript " " is non-empty
but whitespace-only, and the receiver does enqueue it, where the claim
says whitespace-only text enqueues nothing. -/
theorem receiver_whitespace_counterexample :
    (" " : String) ≠ "" ∧ (" " : String).data.all Char.isWhitespace = true ∧
    (receiver [WsEvent.completed " "]).transcripts = [" "] := by decide

/-- Claim C4: on every termination path of the transcription worker (clean
stop, connect failure, transport error mid-stream, protocol error, or an
exception escaping the streaming block), the "Stopped" status is emitted
exactly once and is the final status. -/
theorem stopped_status_terminal (o : SessionOutcome) :
    (TranscriptionWorker.runStatuses o).count "Stopped" = 1 ∧
    (TranscriptionWorker.runStatuses o).getLast? = some "Stopped" :=
  ⟨count_stopped_runStatuses o,
   List.getLast?_concat (run_transcription_statuses o)⟩

/-- Claim C7: the first message sent on the connection is the single
session-configuration message, which fixes pcm16 input audio, English as
the transcription language and server-side voice-activity detection; all
audio envelopes come after it. -/
theorem session_config_message (stopped : Nat → Bool) (blocks : List (List Nat)) :
    (run_transcription_outbound stopped blocks).head? =
      some (OutMsg.config sessionUpdateMsg) ∧
    (run_transcription_outbound stopped blocks).countP isConfig = 1 ∧
    sessionUpdateMsg.input_audio_format = "pcm16" ∧
    sessionUpdateMsg.language = "en" ∧
    sessionUpdateMsg.turn_detection = "server_vad" := by
  refine ⟨rfl, ?_, rfl, rfl, rfl⟩
  unfold run_transcription_outbound
  rw [List.countP_cons_of_pos _ _ (by rfl), List.countP_map]
  simp [isConfig, Function.comp]

/-- Claim C8: the request built for source text t has token ceiling
3 * (character length of t) and the low, deterministic-leaning sampling
temperature 0.3. -/
theorem request_budget_and_temperature (text lang_name : String) :
    (buildRequest text lang_name).max_tokens = 3 * text.length ∧
    (buildRequest text lang_name).temperature = 3 / 10 ∧
    (buildRequest text lang_name).temperature < 1 := by
  refine ⟨Nat.mul_comm text.length 3, by norm_num [buildRequest], by norm_num [buildRequest]⟩

/-! ## Dispatcher lemmas -/

/-- One translate call puts exactly one pair on the translation queue. -/
lemma translate_length (oracle : ChatRequest → Except String String)
    (t l : String) : (TranslationWorker.translate oracle t l).length = 1 := by
  unfold TranslationWorker.translate
  cases oracle (buildRequest t l) <;> rfl

/-- The pair a translate call publishes carries its own language label. -/
lemma translate_label (oracle : ChatRequest → Except String String)
    (t l : String) : ∃ s, TranslationWorker.translate oracle t l = [(l, s)] := by
  unfold TranslationWorker.translate
  cases oracle (buildRequest t l) with
  | ok content => exact ⟨strip content, rfl⟩
  | error e => exact ⟨"[Error: " ++ e ++ "]", rfl⟩

lemma pubLabels_cons_deq (x : Option String) (l : List DAct) :
    pubLabels (DAct.deq x :: l) = pubLabels l := rfl

lemma pubLabels_cons_pub (r : String × String) (l : List DAct) :
    pubLabels (DAct.pub r :: l) = r.1 :: pubLabels l := rfl

lemma pubLabels_cons_join (l : List DAct) :
    pubLabels (DAct.joinAll :: l) = pubLabels l := rfl

lemma pubLabels_append (l l2 : List DAct) :
    pubLabels (l ++ l2) = pubLabels l ++ pubLabels l2 :=
  List.filterMap_append l l2 _

/-- The fan-out for one transcript publishes one result per language. -/
lemma fanOut_countP (oracle : ChatRequest → Except String String) (t : String)
    (langs : List (String × String)) :
    (fanOut oracle t langs).countP isPub = langs.length := by
  induction langs with
  | nil => rfl
  | cons p rest ih =>
    obtain ⟨s, hs⟩ := translate_label oracle t p.1
    rw [fanOut, hs]
    simp only [List.map_cons, List.map_nil, List.countP_append, ih]
    simp [isPub]
    omega

/-- The labels of the fan-out publications are exactly the configured
language names, in table order, whatever the oracle answers. -/
lemma fanOut_labels (oracle : ChatRequest → Except String String) (t : String)
    (langs : List (String × String)) :
    pubLabels (fanOut oracle t langs) = langs.map Prod.fst := by
  induction langs with
  | nil => rfl
  | cons p rest ih =>
    obtain ⟨s, hs⟩ := translate_label oracle t p.1
    rw [fanOut, hs]
    show pubLabels (DAct.pub (p.1, s) :: fanOut oracle t rest) =
      p.1 :: rest.map Prod.fst
    rw [pubLabels_cons_pub, ih]

/-- Note on shape: `a :: l ++ l2` in the definition of batchActs parses as
`(a :: l) ++ l2`, which is the list `a :: (l ++ l2)`. -/
lemma batchActs_countP (oracle : ChatRequest → Except String String)
    (langs : List (String × String)) (t : String) :
    (batchActs oracle langs t).countP isPub = langs.length + 1 := by
  unfold batchActs
  rw [List.countP_append]
  show (DAct.pub ("English", t) :: fanOut oracle t langs).countP isPub +
    ([DAct.joinAll].countP isPub) = langs.length + 1
  rw [List.countP_cons, fanOut_countP]
  simp [isPub]

lemma batchActs_labels (oracle : ChatRequest → Except String String)
    (langs : List (String × String)) (t : String) :
    pubLabels (batchActs oracle langs t) = "English" :: langs.map Prod.fst := by
  unfold batchActs
  rw [pubLabels_append, pubLabels_cons_pub, fanOut_labels]
  simp [pubLabels]

lemma batchActs_getLast (oracle : ChatRequest → Except String String)
    (langs : List (String × String)) (t : String) :
    (batchActs oracle langs t).getLast? = some DAct.joinAll := by
  unfold batchActs
  exact List.getLast?_concat _

/-- Every fan-out action is a publication. -/
lemma fanOut_mem (oracle : ChatRequest → Except String String) (t : String)
    (langs : List (String × String)) :
    ∀ a ∈ fanOut oracle t langs, ∃ r, a = DAct.pub r := by
  induction langs with
  | nil => intro a ha; simp [fanOut] at ha
  | cons p rest ih =>
    intro a ha
    obtain ⟨s, hs⟩ := translate_label oracle t p.1
    rw [fanOut, hs] at ha
    rcases List.mem_append.mp ha with h | h
    · simp only [List.map_cons, List.map_nil, List.mem_singleton] at h
      exact ⟨(p.1, s), h⟩
    · exact ih a h

/-- The batch for one transcript performs no dequeue of its own. -/
lemma batchActs_no_deq (oracle : ChatRequest → Except String String)
    (langs : List (String × String)) (t : String) :
    ∀ a ∈ batchActs oracle langs t, ∀ x, a ≠ DAct.deq x := by
  intro a ha x
  unfold batchActs at ha
  rcases List.mem_append.mp ha with h | h
  · rcases List.mem_cons.mp h with h2 | h2
    · subst h2; intro hc; exact DAct.noConfusion hc
    · obtain ⟨r, hr⟩ := fanOut_mem oracle t langs a h2
      subst hr; intro hc; exact DAct.noConfusion hc
  · rw [List.mem_singleton.mp h]; intro hc; exact DAct.noConfusion hc

/-- The labels published by the dispatcher loop do not depend on the
translation oracle: failed calls occupy their own slot and nothing else. -/
lemma pubLabels_runTrace_oracle_free (oracle oracle2 : ChatRequest → Except String String)
    (langs : List (String × String)) (stopped : Nat → Bool) :
    ∀ (q : List (Option String)) (i : Nat),
      pubLabels (runTrace oracle langs stopped i q) =
        pubLabels (runTrace oracle2 langs stopped i q) := by
  intro q
  induction q with
  | nil => intro i; rfl
  | cons x rest ih =>
    intro i
    cases x with
    | none => rfl
    | some t =>
      show pubLabels (if stopped i = true then [] else DAct.deq (some t) ::
          (batchActs oracle langs t ++ runTrace oracle langs stopped (i + 1) rest)) =
        pubLabels (if stopped i = true then [] else DAct.deq (some t) ::
          (batchActs oracle2 langs t ++ runTrace oracle2 langs stopped (i + 1) rest))
      cases hstop : stopped i with
      | false =>
        rw [if_neg Bool.false_ne_true, if_neg Bool.false_ne_true,
          pubLabels_cons_deq, pubLabels_cons_deq, pubLabels_append, pubLabels_append,
          batchActs_labels, batchActs_labels, ih (i + 1)]
      | true => rfl

/-- Consuming the queue up to the None sentinel does not look past it. -/
lemma runTrace_sentinel_ignores_rest (oracle : ChatRequest → Except String String)
    (langs : List (String × String)) (stopped : Nat → Bool) :
    ∀ (xs : List String) (i : Nat) (rest : List (Option String)),
      runTrace oracle langs stopped i (xs.map some ++ none :: rest) =
        runTrace oracle langs stopped i (xs.map some ++ [none]) := by
  intro xs
  induction xs with
  | nil => intro i rest; rfl
  | cons x xs ih =>
    intro i rest
    show (if stopped i = true then [] else DAct.deq (some x) ::
        (batchActs oracle langs x ++
          runTrace oracle langs stopped (i + 1) (xs.map some ++ none :: rest))) =
      (if stopped i = true then [] else DAct.deq (some x) ::
        (batchActs oracle langs x ++
          runTrace oracle langs stopped (i + 1) (xs.map some ++ [none])))
    rw [ih (i + 1) rest]

/-- With the stop event never observed set, each of the n real transcripts
before the sentinel contributes exactly N+1 publications and the sentinel
none. -/
lemma runTrace_countP_full (oracle : ChatRequest → Except String String)
    (langs : List (String × String)) (stopped : Nat → Bool)
    (h : ∀ j, stopped j = false) :
    ∀ (xs : List String) (i : Nat),
      (runTrace oracle langs stopped i (xs.map some ++ [none])).countP isPub =
        xs.length * (langs.length + 1) := by
  intro xs
  induction xs with
  | nil =>
    intro i
    simp [runTrace, h i, pubLabels, isPub]
  | cons x xs ih =>
    intro i
    show (if stopped i = true then [] else DAct.deq (some x) ::
        (batchActs oracle langs x ++
          runTrace oracle langs stopped (i + 1) (xs.map some ++ [none]))).countP isPub =
      (x :: xs).length * (langs.length + 1)
    rw [h i, if_neg Bool.false_ne_true, List.countP_cons, List.countP_append,
      batchActs_countP, ih (i + 1)]
    simp only [isPub, List.length_cons]
    rw [if_neg Bool.false_ne_true]
    ring

/-! ## Remaining claim theorems -/

/-- Claim C1: when the dispatcher dequeues a real transcript, it performs
one batch publishing exactly N+1 results for a language table of size N,
the first of them labeled "English" with the transcript text unchanged,
and the batch contains no dequeue and ends with the join over all N
translation calls, so the next transcript is not dequeued before all N
calls finished. -/
theorem dispatcher_batch (oracle : ChatRequest → Except String String)
    (langs : List (String × String)) (stopped : Nat → Bool) (i : Nat)
    (t : String) (rest : List (Option String)) (h : stopped i = false) :
    runTrace oracle langs stopped i (some t :: rest) =
      DAct.deq (some t) ::
        (batchActs oracle langs t ++ runTrace oracle langs stopped (i + 1) rest) ∧
    (batchActs oracle langs t).countP isPub = langs.length + 1 ∧
    (batchActs oracle langs t).head? = some (DAct.pub ("English", t)) ∧
    (batchActs oracle langs t).getLast? = some DAct.joinAll ∧
    ∀ a ∈ batchActs oracle langs t, ∀ x, a ≠ DAct.deq x := by
  refine ⟨?_, batchActs_countP oracle langs t, rfl,
    batchActs_getLast oracle langs t, batchActs_no_deq oracle langs t⟩
  simp [runTrace, h]

/-- Witness for dispatcher_batch on the concrete language table of
translate.py and an all-success oracle. -/
theorem dispatcher_batch_witness :
    (batchActs (fun _ => Except.ok "hola") TARGET_LANGUAGES "Hi").countP isPub =
      TARGET_LANGUAGES.length + 1 ∧
    (batchActs (fun _ => Except.ok "hola") TARGET_LANGUAGES "Hi").head? =
      some (DAct.pub ("English", "Hi")) :=
  ⟨(dispatcher_batch (fun _ => Except.ok "hola") TARGET_LANGUAGES
      (fun _ => false) 0 "Hi" [] rfl).2.1,
   (dispatcher_batch (fun _ => Except.ok "hola") TARGET_LANGUAGES
      (fun _ => false) 0 "Hi" [] rfl).2.2.1⟩

/-- Claim C5: each translation request publishes exactly one result — on
success (label, stripped translation), on failure (label, error
placeholder) — and the set and order of labels the dispatcher publishes
is the same whatever the oracle does, so one failed language never
suppresses a sibling result or stops the loop. -/
theorem translate_publishes_exactly_once
    (oracle : ChatRequest → Except String String) (t l : String) :
    (TranslationWorker.translate oracle t l).length = 1 ∧
    (∀ c, oracle (buildRequest t l) = Except.ok c →
      TranslationWorker.translate oracle t l = [(l, strip c)]) ∧
    (∀ e, oracle (buildRequest t l) = Except.error e →
      TranslationWorker.translate oracle t l = [(l, "[Error: " ++ e ++ "]")]) ∧
    (∀ (oracle2 : ChatRequest → Except String String)
        (langs : List (String × String)) (stopped : Nat → Bool) (i : Nat)
        (q : List (Option String)),
      pubLabels (runTrace oracle langs stopped i q) =
        pubLabels (runTrace oracle2 langs stopped i q)) := by
  refine ⟨translate_length oracle t l, ?_, ?_, ?_⟩
  · intro c hc
    unfold TranslationWorker.translate
    rw [hc]
  · intro e he
    unfold TranslationWorker.translate
    rw [he]
  · intro oracle2 langs stopped i q
    exact pubLabels_runTrace_oracle_free oracle oracle2 langs stopped q i

/-- Witness for translate_publishes_exactly_once: a successful call whose
response carries surrounding whitespace, and the stripped published
value. -/
theorem translate_publishes_exactly_once_witness :
    (TranslationWorker.translate (fun _ => Except.ok " hola ") "Hi" "Spanish").length = 1 ∧
    TranslationWorker.translate (fun _ => Except.ok " hola ") "Hi" "Spanish" =
      [("Spanish", strip " hola ")] ∧
    strip " hola " = "hola" :=
  ⟨(translate_publishes_exactly_once (fun _ => Except.ok " hola ") "Hi" "Spanish").1,
   (translate_publishes_exactly_once (fun _ => Except.ok " hola ") "Hi" "Spanish").2.1
     " hola " rfl,
   by decide⟩

/-- Claim C9: stop() sets the stop flag and puts the None sentinel on the
transcript queue; the dispatcher loop stops at the sentinel without
looking at anything queued after it, and the sentinel itself contributes
no publication: with n real transcripts before the sentinel the loop
publishes exactly n * (N + 1) results. -/
theorem stop_sentinel (s : TranslationWorkerState) :
    (TranslationWorker.stop s).stopEvent = true ∧
    (TranslationWorker.stop s).transcriptQueue = s.transcriptQueue ++ [none] ∧
    ∀ (oracle : ChatRequest → Except String String)
      (langs : List (String × String)) (stopped : Nat → Bool) (i : Nat)
      (xs : List String) (rest : List (Option String)),
      runTrace oracle langs stopped i (xs.map some ++ none :: rest) =
        runTrace oracle langs stopped i (xs.map some ++ [none]) ∧
      ((∀ j, stopped j = false) →
        (runTrace oracle langs stopped i (xs.map some ++ [none])).countP isPub =
          xs.length * (langs.length + 1)) := by
  refine ⟨rfl, rfl, ?_⟩
  intro oracle langs stopped i xs rest
  exact ⟨runTrace_sentinel_ignores_rest oracle langs stopped xs i rest,
    fun h => runTrace_countP_full oracle langs stopped h xs i⟩

/-- Witness for stop_sentinel with one real transcript, a transcript
queued after the sentinel, and the concrete language table. -/
theorem stop_sentinel_witness :
    (TranslationWorker.stop ⟨false, []⟩).stopEvent = true ∧
    runTrace (fun _ => Except.ok "x") TARGET_LANGUAGES (fun _ => false) 0
        (["Hi"].map some ++ none :: [some "ignored"]) =
      runTrace (fun _ => Except.ok "x") TARGET_LANGUAGES (fun _ => false) 0
        (["Hi"].map some ++ [none]) ∧
    (runTrace (fun _ => Except.ok "x") TARGET_LANGUAGES (fun _ => false) 0
        (["Hi"].map some ++ [none])).countP isPub =
      ["Hi"].length * (TARGET_LANGUAGES.length + 1) :=
  ⟨(stop_sentinel ⟨false, []⟩).1,
   ((stop_sentinel ⟨false, []⟩).2.2 (fun _ => Except.ok "x") TARGET_LANGUAGES
      (fun _ => false) 0 ["Hi"] [some "ignored"]).1,
   ((stop_sentinel ⟨false, []⟩).2.2 (fun _ => Except.ok "x") TARGET_LANGUAGES
      (fun _ => false) 0 ["Hi"] []).2 (fun _ => rfl)⟩

/-! ## Sender, receiver-nonempty and session lemmas -/

/-- While the stop event stays unset, the sender encodes and sends every
queued block in order. -/
lemma sender_no_stop (stopped : Nat → Bool) (h : ∀ j, stopped j = false) :
    ∀ (blocks : List (List Nat)) (i : Nat),
      sender stopped i blocks = blocks.map appendEnvelope := by
  intro blocks
  induction blocks with
  | nil => intro i; rfl
  | cons b rest ih =>
    intro i
    show (if stopped i = true then []
      else appendEnvelope b :: sender stopped (i + 1) rest) = _
    rw [h i, if_neg Bool.false_ne_true, ih (i + 1)]
    rfl

/-- Delivering blocks one by one through audio_callback leaves exactly the
delivered blocks on the audio queue, in capture order. -/
lemma foldl_audio_callback :
    ∀ (blocks : List (List Nat)) (q : List (List Nat)),
      List.foldl audio_callback q blocks = q ++ blocks := by
  intro blocks
  induction blocks with
  | nil => intro q; simp
  | cons b rest ih =>
    intro q
    show List.foldl audio_callback (audio_callback q b) rest = q ++ b :: rest
    rw [ih (audio_callback q b)]
    simp [audio_callback]

/-- Every transcript the receiver ever enqueues is non-empty: the put is
guarded by the truthiness check. -/
lemma receiver_transcripts_nonempty (events : List WsEvent) :
    ∀ t ∈ (receiver events).transcripts, t ≠ "" := by
  induction events with
  | nil => intro t ht; simp [receiver] at ht
  | cons ev rest ih =>
    intro t ht
    cases ev with
    | completed u =>
      rw [receiver] at ht
      rcases List.mem_append.mp ht with h | h
      · by_cases hu : u = ""
        · rw [if_pos hu] at h
          simp at h
        · rw [if_neg hu] at h
          rw [List.mem_singleton.mp h]
          exact hu
      · exact ih t h
    | errorEvt m => simp [receiver] at ht
    | otherEvt => exact ih t ht
    | connClosed => simp [receiver] at ht
    | malformed e => simp [receiver] at ht

/-- A non-empty string has at least one character. -/
lemma one_le_length_of_ne_empty (s : String) (h : s ≠ "") : 1 ≤ s.length := by
  cases s with
  | mk l =>
    cases l with
    | nil => exact absurd rfl h
    | cons a as =>
      show 1 ≤ (a :: as).length
      simp

/-- Once the receiver loop has terminated, no schedule makes the session
put another status or another transcript; only the sender can still act. -/
lemma sessStep_after_done (stp : Step) (s : SessionState)
    (h : s.receiverDone = true) :
    (sessStep stp s).receiverDone = true ∧
    ((sessStep stp s).trace.countP isStatusAct = s.trace.countP isStatusAct ∧
     (sessStep stp s).trace.countP isEnqAct = s.trace.countP isEnqAct) := by
  cases stp with
  | senderStep =>
    show ((if s.stopEvent then s else _) : SessionState).receiverDone = true ∧ _
    cases hstop : s.stopEvent with
    | true => simp [sessStep, hstop, h]
    | false =>
      cases hq : s.audioQueue with
      | nil => simp [sessStep, hstop, hq, h]
      | cons b rest =>
        simp [sessStep, hstop, hq, h, List.countP_append, isStatusAct, isEnqAct]
  | receiverStep => simp [sessStep, h]
  | setStop => simp [sessStep, h]

lemma runSession_after_done (steps : List Step) :
    ∀ (s : SessionState), s.receiverDone = true →
      (runSession steps s).receiverDone = true ∧
      ((runSession steps s).trace.countP isStatusAct = s.trace.countP isStatusAct ∧
       (runSession steps s).trace.countP isEnqAct = s.trace.countP isEnqAct) := by
  induction steps with
  | nil => intro s h; exact ⟨h, rfl, rfl⟩
  | cons stp rest ih =>
    intro s h
    obtain ⟨h1, h2, h3⟩ := sessStep_after_done stp s h
    obtain ⟨g1, g2, g3⟩ := ih (sessStep stp s) h1
    exact ⟨g1, g2.trans h2, g3.trans h3⟩

/-- Once the receiver has terminated and the stop event is set, a step
changes nothing at all. -/
lemma sessStep_frozen (stp : Step) (s : SessionState)
    (hd : s.receiverDone = true) (hs : s.stopEvent = true) :
    sessStep stp s = s := by
  cases stp with
  | senderStep => simp [sessStep, hs]
  | receiverStep => simp [sessStep, hd]
  | setStop =>
    show { s with stopEvent := true } = s
    cases s
    simp_all

lemma runSession_frozen (steps : List Step) :
    ∀ (s : SessionState), s.receiverDone = true → s.stopEvent = true →
      runSession steps s = s := by
  induction steps with
  | nil => intro s _ _; rfl
  | cons stp rest ih =>
    intro s hd hs
    show runSession rest (sessStep stp s) = s
    rw [sessStep_frozen stp s hd hs]
    exact ih s hd hs

/-! ## Claim theorems: C6, C10, C3 -/

/-- Claim C6: while streaming (stop event unset), the capture callback
queues every delivered block and the sender sends exactly one append
envelope per block, in capture order, each envelope carrying the base64
encoding of its block; no block is duplicated or dropped. -/
theorem sender_order_and_count (blocks : List (List Nat)) (stopped : Nat → Bool)
    (h : ∀ j, stopped j = false) :
    List.foldl audio_callback [] blocks = blocks ∧
    sender stopped 0 blocks = blocks.map appendEnvelope ∧
    (sender stopped 0 blocks).length = blocks.length ∧
    (∀ k : Nat, (sender stopped 0 blocks)[k]? = blocks[k]?.map appendEnvelope) ∧
    ∀ b, appendEnvelope b =
      { kind := "input_audio_buffer.append", audio := base64Encode b } := by
  refine ⟨by simp [foldl_audio_callback], sender_no_stop stopped h blocks 0, ?_, ?_, fun b => rfl⟩
  · rw [sender_no_stop stopped h blocks 0, List.length_map]
  · intro k
    rw [sender_no_stop stopped h blocks 0, List.getElem?_map]

/-- Witness for sender_order_and_count: two concrete blocks produce the
two concrete envelopes with their base64 payloads. -/
theorem sender_order_and_count_witness :
    sender (fun _ => false) 0 [[72, 101, 108, 108, 111], [0, 1]] =
      [{ kind := "input_audio_buffer.append", audio := "SGVsbG8=" },
       { kind := "input_audio_buffer.append", audio := "AAE=" }] :=
  (sender_order_and_count [[72, 101, 108, 108, 111], [0, 1]] (fun _ => false)
    (fun _ => rfl)).2.1.trans (by decide)

/-- Claim C10: every transcript the receiver enqueues (the only real
values the dispatcher can dequeue besides the sentinel) is non-empty, so
the token ceiling 3 * len(text) of the resulting translation request is at
least 3 and never zero. -/
theorem dispatched_text_nonempty (events : List WsEvent) (t : String)
    (ht : t ∈ (receiver events).transcripts) (lang_name : String) :
    t ≠ "" ∧ 1 ≤ t.length ∧ 3 ≤ (buildRequest t lang_name).max_tokens := by
  have h1 : t ≠ "" := receiver_transcripts_nonempty events t ht
  have h2 : 1 ≤ t.length := one_le_length_of_ne_empty t h1
  refine ⟨h1, h2, ?_⟩
  show 3 ≤ t.length * 3
  omega

/-- Witness for dispatched_text_nonempty on a concrete stream. -/
theorem dispatched_text_nonempty_witness :
    ("Hi" : String) ≠ "" ∧ 1 ≤ ("Hi" : String).length ∧
      3 ≤ (buildRequest "Hi" "Spanish").max_tokens :=
  dispatched_text_nonempty [WsEvent.completed "Hi"] "Hi" (by decide) "Spanish"

/-- Counterexample to claim C3 as stated: from a mid-stream state whose
next inbound event is a fatal protocol error, the schedule that runs the
receiver and then the sender emits the single error status and then still
sends an append-audio envelope, because the sender loop is gated only on
the stop event. -/
theorem fatal_error_counterexample :
    (runSession [Step.receiverStep, Step.senderStep] midStreamErrorState).trace =
      [SessionAction.status "Error: boom",
       SessionAction.sentAudio { kind := "input_audio_buffer.append", audio := "AAE=" }] ∧
    countSentAudio (afterFirstStatus
      (runSession [Step.receiverStep, Step.senderStep] midStreamErrorState).trace) = 1 := by
  decide

/-- Claim C3 (corrected): processing a fatal protocol error event emits
exactly one error status and terminates the receive loop; afterwards no
schedule produces another status or transcript (so the error status stays
the only one and nothing reconnects the receiver), but append-audio
envelopes can still be sent until the stop event is set; once the stop
event is also set nothing further happens at all; the worker emits the
"stopped" status exactly once, and the connected status at most once per
run (no automatic reconnect). -/
theorem fatal_error_session :
    (∀ (m : String) (rest : List WsEvent) (s : SessionState),
      s.receiverDone = false → s.inbound = WsEvent.errorEvt m :: rest →
        (sessStep Step.receiverStep s).trace =
          s.trace ++ [SessionAction.status ("Error: " ++ m)] ∧
        (sessStep Step.receiverStep s).receiverDone = true) ∧
    (∀ (steps : List Step) (s : SessionState), s.receiverDone = true →
        (runSession steps s).trace.countP isStatusAct = s.trace.countP isStatusAct ∧
        (runSession steps s).trace.countP isEnqAct = s.trace.countP isEnqAct) ∧
    (∀ (steps : List Step) (s : SessionState),
      s.receiverDone = true → s.stopEvent = true → runSession steps s = s) ∧
    (∀ o : SessionOutcome, (TranscriptionWorker.runStatuses o).count "Stopped" = 1) ∧
    (∀ o : SessionOutcome,
      (run_transcription_statuses o).count "Connected. Listening..." ≤ 1) := by
  refine ⟨?_, ?_, runSession_frozen, count_stopped_runStatuses, count_connected_le_one⟩
  · intro m rest s hd hin
    constructor
    · show ((if s.receiverDone then s else _) : SessionState).trace = _
      rw [hd]
      simp [hin]
    · show ((if s.receiverDone then s else _) : SessionState).receiverDone = true
      rw [hd]
      simp [hin]
  · intro steps s h
    exact (runSession_after_done steps s h).2

/-- Witness for fatal_error_session at the concrete mid-stream state. -/
theorem fatal_error_session_witness :
    ((sessStep Step.receiverStep midStreamErrorState).trace =
      midStreamErrorState.trace ++ [SessionAction.status ("Error: " ++ "boom")] ∧
     (sessStep Step.receiverStep midStreamErrorState).receiverDone = true) ∧
    runSession [Step.senderStep, Step.setStop, Step.receiverStep]
        { stopEvent := true, audioQueue := [[0]], inbound := [],
          receiverDone := true, trace := [] } =
      { stopEvent := true, audioQueue := [[0]], inbound := [],
        receiverDone := true, trace := [] } :=
  ⟨fatal_error_session.1 "boom" [] midStreamErrorState rfl rfl,
   fatal_error_session.2.2.1 [Step.senderStep, Step.setStop, Step.receiverStep] _ rfl rfl⟩

/-- Sanity of the base64 model on known vectors, and of the strip model. -/
lemma base64_strip_sanity :
    base64Encode [72, 101, 108, 108, 111] = "SGVsbG8=" ∧
    base64Encode [0] = "AA==" ∧ base64Encode [255] = "/w==" ∧
    base64Encode [0, 0] = "AAA=" ∧ strip " hola " = "hola" := by decide
